import Mathlib

/-!
Shallow embedding of src/dca_deal_cluster.py.

The program keeps three SQLite tables:
  deals(dealid PRIMARY KEY, pair, clusterid, botid, active)
  cluster_pairs(clusterid, pair, number_active, PRIMARY KEY(clusterid, pair))
  bot_pairs(clusterid, botid, pair, enabled, PRIMARY KEY(clusterid, botid, pair))
Each table is embedded as a list of rows in rowid order: DELETE is filter,
INSERT is append (a fresh SQLite rowid is strictly larger than every
surviving rowid, so list append models ORDER BY rowid among surviving plus
new rows), UPDATE is map.  The functions below mirror the Python functions
of the same names statement by statement.
-/

namespace DcaDealCluster

/-- Row of the deals table. -/
structure DealRow where
  dealid : Nat
  pair : String
  clusterid : String
  botid : Nat
  active : Bool
deriving DecidableEq

/-- Row of the cluster_pairs table. -/
structure ClusterPairRow where
  clusterid : String
  pair : String
  number_active : Nat
deriving DecidableEq

/-- Row of the bot_pairs table. -/
structure BotPairRow where
  clusterid : String
  botid : Nat
  pair : String
  enabled : Bool
deriving DecidableEq

/-- Whole database state, each table in rowid order. -/
@[ext]
structure DB where
  deals : List DealRow
  cluster_pairs : List ClusterPairRow
  bot_pairs : List BotPairRow
deriving DecidableEq

/-- One element of the active_deals list of a bot snapshot. -/
structure DealInfo where
  id : Nat
  pair : String
deriving DecidableEq

/-- Bot snapshot as returned by the bot query collaborator. -/
structure BotData where
  id : Nat
  name : String
  active_deals : List DealInfo
  pairs : List String
deriving DecidableEq

/-- Modelled from the spec: check_deal comes from helpers.misc, which is not
under src/.  Per the insert-if-absent contract of the spec (section 4.1), it
reports whether a deal with this id is already stored. -/
def check_deal (deals : List DealRow) (dealid : Nat) : Bool :=
  deals.any (fun r => r.dealid == dealid)

/-- Embeds the first DELETE of clean_bot_db_data: DELETE FROM deals WHERE
botid = bot_id AND active = 0.  Note there is no clusterid restriction. -/
def clean_deals (bid : Nat) (L : List DealRow) : List DealRow :=
  L.filter (fun r => !(r.botid == bid && r.active == false))

/-- Embeds the second DELETE of clean_bot_db_data: DELETE FROM bot_pairs
WHERE botid = bot_id AND enabled = 1.  Again no clusterid restriction. -/
def clean_pairs (bid : Nat) (L : List BotPairRow) : List BotPairRow :=
  L.filter (fun r => !(r.botid == bid && r.enabled == true))

/-- Embeds clean_bot_db_data of the source. -/
def clean_bot_db_data (bot_id : Nat) (db : DB) : DB :=
  { db with
      deals := clean_deals bot_id db.deals,
      bot_pairs := clean_pairs bot_id db.bot_pairs }

/-- Deal ids of the snapshot, in order: the current_deals list built by the
loop in process_bot_deals. -/
def observedIds (bot : BotData) : List Nat :=
  bot.active_deals.map (fun d => d.id)

/-- Embeds the insertion loop of process_bot_deals: for each observed deal,
INSERT only when check_deal finds no stored row for its id. -/
def insertDeals (cid : String) (bid : Nat) : List DealInfo → List DealRow → List DealRow
  | [], L => L
  | d :: ds, L =>
      insertDeals cid bid ds
        (if check_deal L d.id then L else L ++ [⟨d.id, d.pair, cid, bid, true⟩])

/-- Embeds UPDATE deals SET active = 0 WHERE botid = bot_id AND dealid NOT IN
(current_deals). -/
def markInactive (bid : Nat) (current : List Nat) (L : List DealRow) : List DealRow :=
  L.map (fun r =>
    if r.botid == bid && !(decide (r.dealid ∈ current)) then { r with active := false } else r)

/-- Embeds the deals section of process_bot_deals, which is guarded by
the if deals test: an empty active_deals list skips both the insertion loop
and the mark-inactive UPDATE. -/
def process_deals_step (cid : String) (bot : BotData) (db : DB) : DB :=
  if bot.active_deals.isEmpty then db
  else
    { db with
        deals := markInactive bot.id (observedIds bot)
          (insertDeals cid bot.id bot.active_deals db.deals) }

/-- True when a bot_pairs row with primary key (cid, bid, p) is present. -/
def hasKey (cid : String) (bid : Nat) (p : String) (L : List BotPairRow) : Bool :=
  L.any (fun r => r.clusterid == cid && r.botid == bid && r.pair == p)

/-- Embeds INSERT OR IGNORE INTO bot_pairs VALUES (cid, bid, p, 1). -/
def insert_ignore (cid : String) (bid : Nat) (L : List BotPairRow) (p : String) : List BotPairRow :=
  if hasKey cid bid p L then L else L ++ [⟨cid, bid, p, true⟩]

/-- Embeds the pair insertion loop of process_bot_deals. -/
def insert_pairs (cid : String) (bid : Nat) (ps : List String) (L : List BotPairRow) : List BotPairRow :=
  ps.foldl (insert_ignore cid bid) L

/-- Embeds the bot_pairs section of process_bot_deals, guarded by the
if botpairs test. -/
def process_pairs_step (cid : String) (bot : BotData) (db : DB) : DB :=
  if bot.pairs.isEmpty then db
  else { db with bot_pairs := insert_pairs cid bot.id bot.pairs db.bot_pairs }

/-- Embeds process_bot_deals of the source: the deals section followed by
the bot_pairs section, then commit. -/
def process_bot_deals (cid : String) (bot : BotData) (db : DB) : DB :=
  process_pairs_step cid bot (process_deals_step cid bot db)

/-- Distinct values keeping the first occurrence, used to model the groups
produced by GROUP BY pair.  SQLite does not promise an output order for
GROUP BY; the embedding fixes first-occurrence order, and no theorem below
depends on that choice. -/
def dedupFirst : List String → List String
  | [] => []
  | p :: rest => p :: (dedupFirst rest).filter (fun q => !(q == p))

/-- Pairs occurring among the deals rows of the cluster, in first-occurrence
order.  The WHERE clause of the aggregation restricts by clusterid only:
there is no active = 1 condition in the source query. -/
def clusterDealPairs (cid : String) (L : List DealRow) : List String :=
  dedupFirst ((L.filter (fun r => r.clusterid == cid)).map (fun r => r.pair))

/-- COUNT(pair) for one group of the aggregation query: the number of deals
rows of the cluster carrying this pair, active or not. -/
def countPair (cid : String) (p : String) (L : List DealRow) : Nat :=
  (L.filter (fun r => r.clusterid == cid && r.pair == p)).length

/-- Embeds aggregrate_cluster of the source: DELETE the old cluster_pairs
rows of the cluster, then INSERT ... SELECT clusterid, pair, COUNT(pair)
FROM deals WHERE clusterid = cid GROUP BY pair. -/
def aggregrate_cluster (cid : String) (db : DB) : DB :=
  { db with
      cluster_pairs :=
        db.cluster_pairs.filter (fun r => !(r.clusterid == cid))
        ++ (clusterDealPairs cid db.deals).map
            (fun p => ⟨cid, p, countPair cid p db.deals⟩) }

/-- Comma-joined string, exactly as the Python loops build enablepairs and
disablepairs. -/
def joinComma : List String → String
  | [] => ""
  | [p] => p
  | p :: rest => p ++ "," ++ joinComma rest

/-- Embeds process_cluster_deals of the source.  The two UPDATE statements
interpolate the whole comma-joined list as one SQL string literal, so the
condition pair IN ('p1,p2') compares the pair column against the single
string p1,p2 rather than against a list of values. -/
def process_cluster_deals (cid : String) (maxSame : Nat) (db : DB) : DB :=
  let data := db.cluster_pairs.filter (fun r => r.clusterid == cid)
  if data.isEmpty then db
  else
    let enablepairs :=
      (data.filter (fun r => !(decide (maxSame ≤ r.number_active)))).map (fun r => r.pair)
    let disablepairs :=
      (data.filter (fun r => decide (maxSame ≤ r.number_active))).map (fun r => r.pair)
    let bp1 :=
      if enablepairs.isEmpty then db.bot_pairs
      else db.bot_pairs.map (fun r =>
        if r.clusterid == cid && r.pair == joinComma enablepairs then
          { r with enabled := true } else r)
    let bp2 :=
      if disablepairs.isEmpty then bp1
      else bp1.map (fun r =>
        if r.clusterid == cid && r.pair == joinComma disablepairs then
          { r with enabled := false } else r)
    { db with bot_pairs := bp2 }

/-- Enabled pairs of a bot in a cluster, in rowid order: the SELECT of
update_bot_pairs. -/
def enabled_pairs_for (cid : String) (bid : Nat) (db : DB) : List String :=
  ((db.bot_pairs.filter
      (fun r => r.clusterid == cid && r.botid == bid && r.enabled == true)).map
    (fun r => r.pair))

/-- Outcome of update_bot_pairs: either a pair list is pushed to the bot, or
a warning is logged and no push happens. -/
inductive PushAction where
  | push (pairs : List String)
  | warn
deriving DecidableEq

/-- Embeds update_bot_pairs of the source: push the enabled pairs when the
query returns rows, otherwise log a warning and push nothing. -/
def update_bot_pairs (cid : String) (bid : Nat) (db : DB) : PushAction :=
  let ps := enabled_pairs_for cid bid db
  if ps.isEmpty then PushAction.warn else PushAction.push ps

/-- Per-bot phase of the main loop: a successful fetch runs
clean_bot_db_data then process_bot_deals; a failed fetch only logs. -/
def bot_phase (cid : String) (fetched : Option BotData) (db : DB) : DB :=
  match fetched with
  | none => db
  | some bot => process_bot_deals cid bot (clean_bot_db_data bot.id db)

/-- One reconciliation pass of the main loop for one cluster: the per-bot
phase over every configured bot, then aggregrate_cluster, then
process_cluster_deals.  The fetched list carries one fetch outcome per
configured bot. -/
def run_cycle (cid : String) (maxSame : Nat) (fetched : List (Option BotData)) (db : DB) : DB :=
  process_cluster_deals cid maxSame
    (aggregrate_cluster cid (fetched.foldl (fun acc ob => bot_phase cid ob acc) db))

/-- Push phase of the main loop: for every bot whose second fetch succeeded,
the outcome of update_bot_pairs; failed fetches only log. -/
def cycle_pushes (cid : String) (fetched : List (Option BotData)) (db : DB) :
    List (Nat × PushAction) :=
  fetched.filterMap (fun ob => ob.map (fun bot => (bot.id, update_bot_pairs cid bot.id db)))

/-- Ledger effect of clean_bot_db_data followed by process_bot_deals on the
bot_pairs table alone. -/
def assert_pairs (cid : String) (bid : Nat) (ps : List String) (L : List BotPairRow) :
    List BotPairRow :=
  if ps.isEmpty then clean_pairs bid L
  else insert_pairs cid bid ps (clean_pairs bid L)

/-- Starting state for the threshold claim: two active deals on two distinct
pairs of cluster c, and ledger entries for both pairs, both enabled. -/
def dbC1 : DB :=
  ⟨[⟨1, "AAA", "c", 1, true⟩, ⟨2, "BBB", "c", 1, true⟩], [],
    [⟨"c", 1, "AAA", true⟩, ⟨"c", 1, "BBB", true⟩]⟩

/-- C1: with max-same-deals = 1 both pairs have usage 1 >= 1, so the claim
requires both ledger entries to end disabled.  The disable UPDATE however
interpolates the whole comma-joined list as one string literal, so the
condition pair IN ('AAA,BBB') matches no row and both entries stay enabled:
set_enabled does not bulk-flip sets of two or more pairs. -/
theorem c1_multi_pair_set_enabled_noop :
    (aggregrate_cluster "c" dbC1).cluster_pairs = [⟨"c", "AAA", 1⟩, ⟨"c", "BBB", 1⟩]
    ∧ (process_cluster_deals "c" 1 (aggregrate_cluster "c" dbC1)).bot_pairs
        = [⟨"c", 1, "AAA", true⟩, ⟨"c", 1, "BBB", true⟩] := by
  constructor <;> rfl

/-- Stored state with one active deal for bot 7, observed by no snapshot. -/
def dbC2 : DB := ⟨[⟨1, "AAA", "c", 7, true⟩], [], []⟩

/-- Snapshot of bot 7 with an empty set of active deals. -/
def botC2 : BotData := ⟨7, "b", [], []⟩

/-- C2 counterexample: recording a snapshot whose observed set of active
deals is empty leaves the stored active deal of the bot marked active: the
deals section of process_bot_deals is guarded by if deals and the
mark-inactive UPDATE never runs, contradicting the claim that all stored
active deals become inactive in this case. -/
theorem c2_empty_snapshot_keeps_active :
    (process_bot_deals "c" botC2 dbC2).deals = [⟨1, "AAA", "c", 7, true⟩] := by
  rfl

/-- Stored state with a single deal of cluster c already marked inactive. -/
def dbC3 : DB := ⟨[⟨1, "AAA", "c", 1, false⟩], [], []⟩

/-- C3: the aggregation query has no active = 1 condition, so a deal marked
inactive still contributes to the per-pair count: with only one inactive
deal stored, cluster_pairs reports AAA with count 1, while the claim (and
the comment in the source above the query) requires counting active deals
only, hence no row for AAA. -/
theorem c3_inactive_deal_counted :
    (aggregrate_cluster "c" dbC3).cluster_pairs = [⟨"c", "AAA", 1⟩] := by
  rfl

/-- Snapshot of bot 1 with one active deal on pair AAA. -/
def botC4a : BotData := ⟨1, "A", [⟨1, "AAA"⟩], ["AAA"]⟩

/-- Snapshot of the same bot one cycle later: the deal has closed and no
longer appears among its active deals; the candidate pairs are unchanged. -/
def botC4b : BotData := ⟨1, "A", [], ["AAA"]⟩

/-- C4: cluster c with max-same-deals = 1.  Cycle one sees one deal on AAA,
so usage reaches 1 and AAA is disabled.  The deal then closes, dropping
usage from 1 to 0, and the claim requires the next full cycle to re-enable
AAA.  The code instead leaves the deal row active (the empty snapshot skips
the mark-inactive UPDATE), counts it again, and AAA ends the next cycle
still disabled. -/
theorem c4_pair_not_reenabled_next_cycle :
    (run_cycle "c" 1 [some botC4b] (run_cycle "c" 1 [some botC4a] ⟨[], [], []⟩)).bot_pairs
        = [⟨"c", 1, "AAA", false⟩]
    ∧ (run_cycle "c" 1 [some botC4b] (run_cycle "c" 1 [some botC4a] ⟨[], [], []⟩)).deals
        = [⟨1, "AAA", "c", 1, true⟩] := by
  constructor <;> rfl

/-- Snapshot of bot 1 in its first cycle: candidate pair AAA, no deals. -/
def botC5a : BotData := ⟨1, "b", [], ["AAA"]⟩

/-- Snapshot of the same bot one cycle later with new candidate pair BBB
listed before AAA. -/
def botC5b : BotData := ⟨1, "b", [], ["BBB", "AAA"]⟩

/-- C5 counterexample: after a first cycle with candidate list [AAA] and a
second cycle with candidate list [BBB, AAA], the enabled pairs come out as
[BBB, AAA]: clean_bot_db_data deleted the enabled AAA row, and the newly
added candidate BBB was inserted before the re-inserted AAA, so the new
pair is not appended after the existing entry and first-seen order is not
preserved. -/
theorem c5_new_pair_not_appended :
    enabled_pairs_for "c" 1
        (run_cycle "c" 1 [some botC5b] (run_cycle "c" 1 [some botC5a] ⟨[], [], []⟩))
      = ["BBB", "AAA"]
    ∧ (["BBB", "AAA"] : List String) ≠ ["AAA", "BBB"] := by
  exact ⟨rfl, by decide⟩

/-- Ledger holding a single enabled entry for pair AAA of bot 1. -/
def dbC7 : DB := ⟨[], [], [⟨"c", 1, "AAA", true⟩]⟩

/-- Snapshot of bot 1 whose candidate set no longer lists AAA. -/
def botC7 : BotData := ⟨1, "b", [], ["BBB"]⟩

/-- C7 counterexample: the enabled entry for AAA does not survive the
assertion of a candidate set that no longer contains AAA: clean_bot_db_data
deletes every enabled row of the bot and only candidates are re-inserted,
so the entry vanishes instead of keeping its enabled flag. -/
theorem c7_stale_enabled_entry_deleted :
    (process_bot_deals "c" botC7 (clean_bot_db_data 1 dbC7)).bot_pairs
        = [⟨"c", 1, "BBB", true⟩]
    ∧ hasKey "c" 1 "AAA"
        (process_bot_deals "c" botC7 (clean_bot_db_data 1 dbC7)).bot_pairs = false := by
  constructor <;> rfl

/-- Ledger where the skipped bot 2 owns an enabled entry for pair AAA. -/
def dbC8 : DB := ⟨[], [], [⟨"c", 2, "AAA", true⟩]⟩

/-- Snapshot of bot 1, the bot whose fetch succeeds, holding a deal on AAA. -/
def botC8 : BotData := ⟨1, "Y", [⟨10, "AAA"⟩], ["AAA"]⟩

/-- C8 counterexample: bot 2 fails to fetch and is skipped, yet it does not
keep its last Pair Ledger state: the deal of bot 1 saturates pair AAA and
the cluster-wide disable UPDATE of process_cluster_deals flips the entry of
the skipped bot 2 from enabled to disabled in the same cycle. -/
theorem c8_skipped_bot_ledger_flipped :
    (run_cycle "c" 1 [none, some botC8] dbC8).bot_pairs
      = [⟨"c", 2, "AAA", false⟩, ⟨"c", 1, "AAA", false⟩] := by
  rfl

/-- C9 counterexample: on a ledger with zero enabled pairs for the bot,
update_bot_pairs logs a warning and performs no push at all, instead of
pushing an empty pair list as the claim requires. -/
theorem c9_zero_pairs_push_skipped :
    update_bot_pairs "c" 1 (⟨[], [], []⟩ : DB) = PushAction.warn
    ∧ PushAction.warn ≠ PushAction.push [] := by
  exact ⟨rfl, by decide⟩

/-! Helper lemmas about the ledger operations. -/

theorem insert_pairs_nil (cid : String) (bid : Nat) (L : List BotPairRow) :
    insert_pairs cid bid [] L = L := rfl

theorem insert_pairs_cons (cid : String) (bid : Nat) (p : String) (ps : List String)
    (L : List BotPairRow) :
    insert_pairs cid bid (p :: ps) L = insert_pairs cid bid ps (insert_ignore cid bid L p) := rfl

theorem clean_pairs_insert_ignore (cid : String) (bid : Nat) (L : List BotPairRow) (p : String) :
    clean_pairs bid (insert_ignore cid bid L p) = clean_pairs bid L := by
  unfold insert_ignore
  split
  · rfl
  · simp [clean_pairs, List.filter_append]

theorem clean_pairs_insert_pairs (cid : String) (bid : Nat) (ps : List String)
    (L : List BotPairRow) :
    clean_pairs bid (insert_pairs cid bid ps L) = clean_pairs bid L := by
  induction ps generalizing L with
  | nil => rfl
  | cons p ps ih => rw [insert_pairs_cons, ih, clean_pairs_insert_ignore]

theorem clean_pairs_idem (bid : Nat) (L : List BotPairRow) :
    clean_pairs bid (clean_pairs bid L) = clean_pairs bid L := by
  unfold clean_pairs
  rw [List.filter_filter]
  simp

theorem assert_pairs_idem (cid : String) (bid : Nat) (ps : List String) (L : List BotPairRow) :
    assert_pairs cid bid ps (assert_pairs cid bid ps L) = assert_pairs cid bid ps L := by
  unfold assert_pairs
  split
  · exact clean_pairs_idem bid L
  · rw [clean_pairs_insert_pairs, clean_pairs_idem]

theorem hasKey_append (cid : String) (bid : Nat) (p : String) (L M : List BotPairRow) :
    hasKey cid bid p (L ++ M) = (hasKey cid bid p L || hasKey cid bid p M) :=
  List.any_append

theorem hasKey_insert_ignore_of (cid : String) (bid : Nat) (p q : String)
    (L : List BotPairRow) (h : hasKey cid bid p L = true) :
    hasKey cid bid p (insert_ignore cid bid L q) = true := by
  unfold insert_ignore
  split
  · exact h
  · simp [hasKey_append, h]

theorem hasKey_insert_pairs_of (cid : String) (bid : Nat) (p : String) (ps : List String)
    (L : List BotPairRow) (h : hasKey cid bid p L = true) :
    hasKey cid bid p (insert_pairs cid bid ps L) = true := by
  induction ps generalizing L with
  | nil => exact h
  | cons q ps ih =>
      rw [insert_pairs_cons]
      exact ih _ (hasKey_insert_ignore_of cid bid p q L h)

theorem hasKey_singleton_self (cid : String) (bid : Nat) (p : String) :
    hasKey cid bid p [⟨cid, bid, p, true⟩] = true := by
  simp [hasKey]

theorem hasKey_insert_ignore_self (cid : String) (bid : Nat) (p : String)
    (L : List BotPairRow) :
    hasKey cid bid p (insert_ignore cid bid L p) = true := by
  unfold insert_ignore
  by_cases h : hasKey cid bid p L = true
  · rw [if_pos h]
    exact h
  · rw [if_neg h, hasKey_append, hasKey_singleton_self]
    simp

theorem hasKey_insert_pairs_mem (cid : String) (bid : Nat) (p : String) (ps : List String)
    (L : List BotPairRow) (h : p ∈ ps) :
    hasKey cid bid p (insert_pairs cid bid ps L) = true := by
  induction ps generalizing L with
  | nil => cases h
  | cons q ps ih =>
      rw [insert_pairs_cons]
      rcases List.mem_cons.mp h with h1 | h2
      · subst h1
        exact hasKey_insert_pairs_of cid bid p ps _ (hasKey_insert_ignore_self cid bid p L)
      · exact ih _ h2

theorem insert_pairs_of_all_hasKey (cid : String) (bid : Nat) (ps : List String)
    (L : List BotPairRow) (h : ∀ p ∈ ps, hasKey cid bid p L = true) :
    insert_pairs cid bid ps L = L := by
  induction ps with
  | nil => rfl
  | cons q ps ih =>
      rw [insert_pairs_cons]
      unfold insert_ignore
      rw [if_pos (h q (by simp))]
      exact ih (fun p hp => h p (List.mem_cons_of_mem _ hp))

theorem insert_pairs_idem (cid : String) (bid : Nat) (ps : List String) (L : List BotPairRow) :
    insert_pairs cid bid ps (insert_pairs cid bid ps L) = insert_pairs cid bid ps L :=
  insert_pairs_of_all_hasKey cid bid ps _ (fun p hp => hasKey_insert_pairs_mem cid bid p ps L hp)

theorem mem_insert_pairs_of_mem (cid : String) (bid : Nat) (ps : List String)
    (L : List BotPairRow) (r : BotPairRow) (h : r ∈ L) :
    r ∈ insert_pairs cid bid ps L := by
  induction ps generalizing L with
  | nil => exact h
  | cons q ps ih =>
      rw [insert_pairs_cons]
      apply ih
      unfold insert_ignore
      split
      · exact h
      · exact List.mem_append_left _ h

theorem mem_of_mem_insert_pairs (cid : String) (bid : Nat) (ps : List String)
    (L : List BotPairRow) (r : BotPairRow) (h : r ∈ insert_pairs cid bid ps L) :
    r ∈ L ∨ ∃ p, p ∈ ps ∧ r = ⟨cid, bid, p, true⟩ := by
  induction ps generalizing L with
  | nil => exact Or.inl h
  | cons q ps ih =>
      rw [insert_pairs_cons] at h
      rcases ih _ h with h1 | ⟨p, hp, rfl⟩
      · unfold insert_ignore at h1
        split at h1
        · exact Or.inl h1
        · rcases List.mem_append.mp h1 with h2 | h2
          · exact Or.inl h2
          · exact Or.inr ⟨q, by simp, by simpa using h2⟩
      · exact Or.inr ⟨p, List.mem_cons_of_mem _ hp, rfl⟩

theorem mem_insert_pairs_of_not_hasKey (cid : String) (bid : Nat) (p : String)
    (ps : List String) (L : List BotPairRow)
    (hk : hasKey cid bid p L = false) (h : p ∈ ps) :
    (⟨cid, bid, p, true⟩ : BotPairRow) ∈ insert_pairs cid bid ps L := by
  induction ps generalizing L with
  | nil => cases h
  | cons q ps ih =>
      rw [insert_pairs_cons]
      by_cases hq : q = p
      · subst hq
        unfold insert_ignore
        rw [if_neg (by simp [hk])]
        exact mem_insert_pairs_of_mem cid bid ps _ _ (List.mem_append_right _ (by simp))
      · rcases List.mem_cons.mp h with h1 | h2
        · exact absurd h1.symm hq
        · refine ih _ ?_ h2
          unfold insert_ignore
          split
          · exact hk
          · rw [hasKey_append, hk]
            simp [hasKey, hq]

/-! Helper lemmas about the deal store operations. -/

theorem insertDeals_nil (cid : String) (bid : Nat) (L : List DealRow) :
    insertDeals cid bid [] L = L := rfl

theorem insertDeals_cons (cid : String) (bid : Nat) (d : DealInfo) (ds : List DealInfo)
    (L : List DealRow) :
    insertDeals cid bid (d :: ds) L
      = insertDeals cid bid ds
          (if check_deal L d.id then L else L ++ [⟨d.id, d.pair, cid, bid, true⟩]) := rfl

theorem check_deal_append (L M : List DealRow) (i : Nat) :
    check_deal (L ++ M) i = (check_deal L i || check_deal M i) :=
  List.any_append

theorem check_deal_insertDeals_of (cid : String) (bid : Nat) (ds : List DealInfo)
    (L : List DealRow) (i : Nat) (h : check_deal L i = true) :
    check_deal (insertDeals cid bid ds L) i = true := by
  induction ds generalizing L with
  | nil => exact h
  | cons d ds ih =>
      rw [insertDeals_cons]
      split
      · exact ih _ h
      · exact ih _ (by simp [check_deal_append, h])

theorem check_deal_insertDeals_mem (cid : String) (bid : Nat) (d : DealInfo)
    (ds : List DealInfo) (L : List DealRow) (h : d ∈ ds) :
    check_deal (insertDeals cid bid ds L) d.id = true := by
  induction ds generalizing L with
  | nil => cases h
  | cons e ds ih =>
      rw [insertDeals_cons]
      rcases List.mem_cons.mp h with h1 | h2
      · subst h1
        apply check_deal_insertDeals_of
        by_cases hc : check_deal L d.id = true
        · rw [if_pos hc]
          exact hc
        · rw [if_neg hc, check_deal_append]
          simp [check_deal]
      · exact ih _ h2

theorem insertDeals_of_all (cid : String) (bid : Nat) (ds : List DealInfo)
    (L : List DealRow) (h : ∀ d ∈ ds, check_deal L d.id = true) :
    insertDeals cid bid ds L = L := by
  induction ds with
  | nil => rfl
  | cons d ds ih =>
      rw [insertDeals_cons, if_pos (h d (by simp))]
      exact ih (fun e he => h e (List.mem_cons_of_mem _ he))

theorem check_deal_markInactive (bid : Nat) (cur : List Nat) (L : List DealRow) (i : Nat) :
    check_deal (markInactive bid cur L) i = check_deal L i := by
  induction L with
  | nil => rfl
  | cons r L ih =>
      have hd : (if r.botid == bid && !(decide (r.dealid ∈ cur)) then
          { r with active := false } else r).dealid = r.dealid := by
        split <;> rfl
      simp only [markInactive, List.map_cons, check_deal, List.any_cons] at ih ⊢
      rw [hd, ih]

theorem markInactive_idem (bid : Nat) (cur : List Nat) (L : List DealRow) :
    markInactive bid cur (markInactive bid cur L) = markInactive bid cur L := by
  unfold markInactive
  rw [List.map_map]
  apply List.map_congr_left
  intro r _
  by_cases hc : r.botid = bid ∧ r.dealid ∉ cur
  · simp [hc]
  · simp [hc]

/-! Frame lemmas connecting the per-step functions to their effect on each
table. -/

theorem process_deals_step_deals (cid : String) (bot : BotData) (db : DB) :
    (process_deals_step cid bot db).deals =
      if bot.active_deals.isEmpty then db.deals
      else markInactive bot.id (observedIds bot)
        (insertDeals cid bot.id bot.active_deals db.deals) := by
  unfold process_deals_step
  by_cases h : bot.active_deals.isEmpty = true
  · rw [if_pos h, if_pos h]
  · rw [if_neg h, if_neg h]

theorem process_deals_step_bot_pairs (cid : String) (bot : BotData) (db : DB) :
    (process_deals_step cid bot db).bot_pairs = db.bot_pairs := by
  unfold process_deals_step
  split <;> rfl

theorem process_deals_step_cluster_pairs (cid : String) (bot : BotData) (db : DB) :
    (process_deals_step cid bot db).cluster_pairs = db.cluster_pairs := by
  unfold process_deals_step
  split <;> rfl

theorem process_pairs_step_deals (cid : String) (bot : BotData) (db : DB) :
    (process_pairs_step cid bot db).deals = db.deals := by
  unfold process_pairs_step
  split <;> rfl

theorem process_pairs_step_cluster_pairs (cid : String) (bot : BotData) (db : DB) :
    (process_pairs_step cid bot db).cluster_pairs = db.cluster_pairs := by
  unfold process_pairs_step
  split <;> rfl

theorem process_pairs_step_bot_pairs (cid : String) (bot : BotData) (db : DB) :
    (process_pairs_step cid bot db).bot_pairs =
      if bot.pairs.isEmpty then db.bot_pairs
      else insert_pairs cid bot.id bot.pairs db.bot_pairs := by
  unfold process_pairs_step
  by_cases h : bot.pairs.isEmpty = true
  · rw [if_pos h, if_pos h]
  · rw [if_neg h, if_neg h]

theorem process_bot_deals_deals (cid : String) (bot : BotData) (db : DB) :
    (process_bot_deals cid bot db).deals =
      if bot.active_deals.isEmpty then db.deals
      else markInactive bot.id (observedIds bot)
        (insertDeals cid bot.id bot.active_deals db.deals) := by
  unfold process_bot_deals
  rw [process_pairs_step_deals, process_deals_step_deals]

theorem process_bot_deals_cluster_pairs (cid : String) (bot : BotData) (db : DB) :
    (process_bot_deals cid bot db).cluster_pairs = db.cluster_pairs := by
  unfold process_bot_deals
  rw [process_pairs_step_cluster_pairs, process_deals_step_cluster_pairs]

theorem process_bot_deals_bot_pairs (cid : String) (bot : BotData) (db : DB) :
    (process_bot_deals cid bot db).bot_pairs =
      if bot.pairs.isEmpty then db.bot_pairs
      else insert_pairs cid bot.id bot.pairs db.bot_pairs := by
  unfold process_bot_deals
  rw [process_pairs_step_bot_pairs, process_deals_step_bot_pairs]

/-- Ledger effect of the clean step followed by the assertion of the
candidate pairs: it is exactly assert_pairs. -/
theorem clean_process_bot_pairs (cid : String) (bot : BotData) (db : DB) :
    (process_bot_deals cid bot (clean_bot_db_data bot.id db)).bot_pairs
      = assert_pairs cid bot.id bot.pairs db.bot_pairs := by
  rw [process_bot_deals_bot_pairs]
  rfl

/-- C6: recording the same bot snapshot a second time changes nothing: the
deal insertion loop finds every observed deal already stored, the
mark-inactive UPDATE only touches rows it already set to inactive, and the
INSERT OR IGNORE of the candidate pairs ignores every row, so the whole
database state after the second process_bot_deals equals the state after
the first. -/
theorem c6_record_snapshot_idempotent (cid : String) (bot : BotData) (db : DB) :
    process_bot_deals cid bot (process_bot_deals cid bot db) = process_bot_deals cid bot db := by
  apply DB.ext
  · rw [process_bot_deals_deals, process_bot_deals_deals]
    by_cases hE : bot.active_deals.isEmpty = true
    · rw [if_pos hE, if_pos hE]
    · rw [if_neg hE, if_neg hE]
      have hall : ∀ d ∈ bot.active_deals,
          check_deal (markInactive bot.id (observedIds bot)
            (insertDeals cid bot.id bot.active_deals db.deals)) d.id = true := by
        intro d hd
        rw [check_deal_markInactive]
        exact check_deal_insertDeals_mem cid bot.id d bot.active_deals db.deals hd
      rw [insertDeals_of_all cid bot.id bot.active_deals _ hall, markInactive_idem]
  · rw [process_bot_deals_cluster_pairs, process_bot_deals_cluster_pairs]
  · rw [process_bot_deals_bot_pairs, process_bot_deals_bot_pairs]
    by_cases hP : bot.pairs.isEmpty = true
    · simp [hP]
    · simp [hP, insert_pairs_idem]

/-- C2 amended: whenever the observed set of active deals is nonempty,
process_bot_deals marks inactive every stored deal of the bot whose id is
not among the observed ids (when the observed set is empty the whole deals
section is skipped and nothing is marked, as the counterexample shows). -/
theorem c2_nonempty_marks_unobserved_inactive (cid : String) (bot : BotData) (db : DB)
    (h : bot.active_deals ≠ []) :
    ∀ r ∈ (process_bot_deals cid bot db).deals,
      r.botid = bot.id → r.dealid ∉ observedIds bot → r.active = false := by
  intro r hr hbot hobs
  have hE : bot.active_deals.isEmpty = false := by
    cases hd : bot.active_deals with
    | nil => exact absurd hd h
    | cons a l => rfl
  rw [process_bot_deals_deals, hE] at hr
  simp only [Bool.false_eq_true, if_false] at hr
  rcases List.mem_map.mp hr with ⟨r0, hr0, heq⟩
  by_cases hc : r0.botid = bot.id ∧ r0.dealid ∉ observedIds bot
  · rw [← heq]
    simp [hc]
  · exfalso
    apply hc
    have hr0eq : r = r0 := by
      rw [← heq]
      simp [hc]
    rw [hr0eq] at hbot hobs
    exact ⟨hbot, hobs⟩

/-- Stored state for the C2 witness: one stale active deal for bot 7. -/
def dbC2w : DB := ⟨[⟨9, "AAA", "c", 7, true⟩], [], []⟩

/-- Snapshot for the C2 witness: bot 7 with one observed deal. -/
def botC2w : BotData := ⟨7, "b", [⟨1, "AAA"⟩], []⟩

/-- Witness for the amended C2 theorem at a concrete input. -/
theorem c2_marks_witness :
    botC2w.active_deals ≠ [] ∧
      (∀ r ∈ (process_bot_deals "c" botC2w dbC2w).deals,
        r.botid = botC2w.id → r.dealid ∉ observedIds botC2w → r.active = false) :=
  ⟨by decide, c2_nonempty_marks_unobserved_inactive "c" botC2w dbC2w (by decide)⟩

/-- C5 amended: re-running the clean and assert step of a cycle with the
same candidate set leaves the bot_pairs table unchanged, so the pushed
order is stable under re-runs; the order itself, however, is the current
candidate-list order for the re-inserted enabled entries, not first-seen
insertion order, and a new candidate pair lands at its position in the
candidate list rather than after all existing entries. -/
theorem c5_assert_step_idempotent (cid : String) (bot : BotData) (db : DB) :
    (process_bot_deals cid bot (clean_bot_db_data bot.id
        (process_bot_deals cid bot (clean_bot_db_data bot.id db)))).bot_pairs
      = (process_bot_deals cid bot (clean_bot_db_data bot.id db)).bot_pairs := by
  simp only [clean_process_bot_pairs]
  exact assert_pairs_idem cid bot.id bot.pairs db.bot_pairs

/-- C7 amended: asserting the candidate pairs of a bot for a new cycle
preserves every disabled entry of the bot verbatim and every entry of other
bots; a candidate pair whose prior entries (if any) are all enabled ends up
present and enabled, so entries for pairs still in the candidate set keep
their flag and pairs with no prior entry are created enabled; but an
enabled entry whose pair is no longer among the candidates is deleted by
the clean step rather than preserved. -/
theorem c7_candidate_flags_preserved (cid : String) (bot : BotData) (db : DB) :
    (∀ r ∈ db.bot_pairs, r.enabled = false →
        r ∈ (process_bot_deals cid bot (clean_bot_db_data bot.id db)).bot_pairs)
    ∧ (∀ r ∈ db.bot_pairs, r.botid ≠ bot.id →
        r ∈ (process_bot_deals cid bot (clean_bot_db_data bot.id db)).bot_pairs)
    ∧ (∀ p ∈ bot.pairs,
        (∀ r ∈ db.bot_pairs, r.clusterid = cid → r.botid = bot.id → r.pair = p →
          r.enabled = true) →
        (⟨cid, bot.id, p, true⟩ : BotPairRow)
          ∈ (process_bot_deals cid bot (clean_bot_db_data bot.id db)).bot_pairs)
    ∧ (∀ r ∈ db.bot_pairs, r.botid = bot.id → r.enabled = true → r.pair ∉ bot.pairs →
        r ∉ (process_bot_deals cid bot (clean_bot_db_data bot.id db)).bot_pairs) := by
  simp only [clean_process_bot_pairs]
  have hmem_clean : ∀ r ∈ db.bot_pairs, ¬(r.botid = bot.id ∧ r.enabled = true) →
      r ∈ clean_pairs bot.id db.bot_pairs := by
    intro r hr hcond
    unfold clean_pairs
    rw [List.mem_filter]
    refine ⟨hr, ?_⟩
    by_cases hb : r.botid = bot.id
    · have he : r.enabled = false := by
        rw [Bool.eq_false_iff]
        intro htrue
        exact hcond ⟨hb, htrue⟩
      simp [he]
    · simp [hb]
  have hsurvives : ∀ r ∈ db.bot_pairs, ¬(r.botid = bot.id ∧ r.enabled = true) →
      r ∈ assert_pairs cid bot.id bot.pairs db.bot_pairs := by
    intro r hr hcond
    unfold assert_pairs
    split
    · exact hmem_clean r hr hcond
    · exact mem_insert_pairs_of_mem cid bot.id bot.pairs _ r (hmem_clean r hr hcond)
  refine ⟨?_, ?_, ?_, ?_⟩
  · intro r hr hdis
    apply hsurvives r hr
    intro hand
    rw [hdis] at hand
    exact Bool.false_ne_true hand.2
  · intro r hr hne
    exact hsurvives r hr (fun hand => hne hand.1)
  · intro p hp hall
    have hnotkey : hasKey cid bot.id p (clean_pairs bot.id db.bot_pairs) = false := by
      rw [Bool.eq_false_iff]
      intro hk
      rcases List.any_eq_true.mp hk with ⟨r, hrmem, hrprop⟩
      unfold clean_pairs at hrmem
      rw [List.mem_filter] at hrmem
      have hb : (r.clusterid = cid ∧ r.botid = bot.id) ∧ r.pair = p := by
        simpa using hrprop
      have henab : r.enabled = true :=
        hall r hrmem.1 hb.1.1 hb.1.2 hb.2
      have hpred := hrmem.2
      simp [hb.1.2, henab] at hpred
    have hps : bot.pairs.isEmpty = false := by
      cases hd : bot.pairs with
      | nil =>
          rw [hd] at hp
          cases hp
      | cons a l => rfl
    unfold assert_pairs
    rw [hps]
    simp only [Bool.false_eq_true, if_false]
    exact mem_insert_pairs_of_not_hasKey cid bot.id p bot.pairs _ hnotkey hp
  · intro r hr hbot henab hstale hres
    have hnotclean : r ∉ clean_pairs bot.id db.bot_pairs := by
      unfold clean_pairs
      rw [List.mem_filter]
      intro hmem
      have := hmem.2
      simp [hbot, henab] at this
    unfold assert_pairs at hres
    split at hres
    · exact hnotclean hres
    · rcases mem_of_mem_insert_pairs cid bot.id bot.pairs _ r hres with h1 | ⟨p, hps, heq⟩
      · exact hnotclean h1
      · apply hstale
        rw [heq]
        exact hps

/-- Witness for the amended C7 theorem at concrete inputs: the disabled
entry for BBB survives, and candidate AAA with no prior entry is created
enabled. -/
theorem c7_candidate_flags_witness :
    (⟨"c", 1, "AAA", true⟩ : BotPairRow)
        ∈ (process_bot_deals "c" ⟨1, "b", [], ["AAA"]⟩
            (clean_bot_db_data 1 (⟨[], [], [⟨"c", 1, "BBB", false⟩]⟩ : DB))).bot_pairs
    ∧ (⟨"c", 1, "BBB", false⟩ : BotPairRow)
        ∈ (process_bot_deals "c" ⟨1, "b", [], ["AAA"]⟩
            (clean_bot_db_data 1 (⟨[], [], [⟨"c", 1, "BBB", false⟩]⟩ : DB))).bot_pairs :=
  ⟨(c7_candidate_flags_preserved "c" ⟨1, "b", [], ["AAA"]⟩
      ⟨[], [], [⟨"c", 1, "BBB", false⟩]⟩).2.2.1 "AAA" (by decide) (by decide),
   (c7_candidate_flags_preserved "c" ⟨1, "b", [], ["AAA"]⟩
      ⟨[], [], [⟨"c", 1, "BBB", false⟩]⟩).1 ⟨"c", 1, "BBB", false⟩ (by decide) (by decide)⟩

/-- C8 amended: a failed fetch makes the cycle behave exactly as if the bot
were absent from the list: the per-bot phase performs no database write for
it and every remaining step of the cluster runs unchanged, and the push
phase likewise skips the bot; the skipped bot keeps its ledger entries
except that they remain subject to the cluster-wide enable and disable
flips of process_cluster_deals, as the counterexample shows. -/
theorem c8_fetch_failure_skips_bot (cid : String) (maxSame : Nat)
    (pre post : List (Option BotData)) (db : DB) :
    run_cycle cid maxSame (pre ++ none :: post) db = run_cycle cid maxSame (pre ++ post) db
    ∧ cycle_pushes cid (pre ++ none :: post) db = cycle_pushes cid (pre ++ post) db := by
  constructor
  · unfold run_cycle
    rw [List.foldl_append, List.foldl_append]
    rfl
  · unfold cycle_pushes
    rw [List.filterMap_append, List.filterMap_append]
    rfl

/-- C9 amended: a bot with zero enabled pairs is not pushed an empty list;
update_bot_pairs surfaces the warning outcome exactly when the enabled pair
query returns no rows, and pushes in every other case. -/
theorem c9_warn_iff_no_enabled_pairs (cid : String) (bid : Nat) (db : DB) :
    update_bot_pairs cid bid db = PushAction.warn ↔ enabled_pairs_for cid bid db = [] := by
  unfold update_bot_pairs
  by_cases h : (enabled_pairs_for cid bid db).isEmpty = true
  · rw [if_pos h]
    simp only [List.isEmpty_iff] at h
    simp [h]
  · rw [if_neg h]
    simp only [List.isEmpty_iff] at h
    simp [h]

/-- C10: clean_bot_db_data removes exactly the deals rows of the bot with
active = 0 and the bot_pairs rows of the bot with enabled = 1, leaving
cluster_pairs untouched; neither DELETE carries a clusterid condition, so
for a bot configured in several clusters the matching rows of every other
cluster are removed as well. -/
theorem c10_clean_deletes_across_clusters (bid : Nat) (db : DB) (r : DealRow)
    (b : BotPairRow) :
    (r ∈ (clean_bot_db_data bid db).deals
        ↔ r ∈ db.deals ∧ ¬(r.botid = bid ∧ r.active = false))
    ∧ (b ∈ (clean_bot_db_data bid db).bot_pairs
        ↔ b ∈ db.bot_pairs ∧ ¬(b.botid = bid ∧ b.enabled = true))
    ∧ (clean_bot_db_data bid db).cluster_pairs = db.cluster_pairs := by
  refine ⟨?_, ?_, rfl⟩
  · unfold clean_bot_db_data clean_deals
    rw [List.mem_filter]
    constructor
    · rintro ⟨h1, h2⟩
      refine ⟨h1, ?_⟩
      rintro ⟨hb, ha⟩
      simp [hb, ha] at h2
    · rintro ⟨h1, h2⟩
      refine ⟨h1, ?_⟩
      by_cases hb : r.botid = bid
      · cases ha : r.active with
        | false => exact absurd ⟨hb, ha⟩ h2
        | true => simp [hb, ha]
      · simp [hb]
  · unfold clean_bot_db_data clean_pairs
    rw [List.mem_filter]
    constructor
    · rintro ⟨h1, h2⟩
      refine ⟨h1, ?_⟩
      rintro ⟨hb, ha⟩
      simp [hb, ha] at h2
    · rintro ⟨h1, h2⟩
      refine ⟨h1, ?_⟩
      by_cases hb : b.botid = bid
      · cases ha : b.enabled with
        | true => exact absurd ⟨hb, ha⟩ h2
        | false => simp [hb, ha]
      · simp [hb]

end DcaDealCluster
